import Mathlib

/-!
Shallow embedding of `src/packages/vue/src/useForm.ts` (mini-formkit).

JavaScript records are modelled as association lists in insertion order
(`Object.entries` / `Object.keys` order); `undefined` is `Option.none`;
a thrown exception is modelled by an `Option`-returning function yielding
`none`.  Rule predicates are pure Lean functions `FormValue → Bool`,
matching the source's synchronous pure validator contract.
-/

namespace MiniFormKit

/-- `FormValue` from the source:
`Date | string | number | boolean | string[] | null | undefined`.
A `Date` carries `some t` for a valid time value and `none` when its time
is `NaN` (an invalid date).  Numbers are modelled as integers. -/
inductive FormValue where
  | date (time : Option Int)
  | str (s : String)
  | num (n : Int)
  | bool (b : Bool)
  | arr (xs : List String)
  | null
  | undefined
deriving DecidableEq

/-- `Validator = boolean | ((value?: FormValue) => boolean)` from the source. -/
inductive Validator where
  | bool (b : Bool)
  | fn (f : FormValue → Bool)

/-- A field's rule set: the entries of the per-field rules object, in
declaration order (`Object.entries(fieldRules)`). -/
abbrev RuleSet := List (String × Validator)

/-- The whole-form rules object: field name to rule set, own keys only. -/
abbrev RuleTable := List (String × RuleSet)

/-- The labels object: field name to display label. -/
abbrev LabelTable := List (String × String)

/-- The form value record: field name to value, in `Object.entries` order. -/
abbrev FormRecord := List (String × FormValue)

/-- JavaScript truthiness `!!value` on the `FormValue` domain: `undefined`,
`null`, `false`, `0` and `""` are falsy; `Date` and array objects are
always truthy. -/
def jsTruthy : FormValue → Bool
  | FormValue.date _ => true
  | FormValue.str s => decide (s ≠ "")
  | FormValue.num n => decide (n ≠ 0)
  | FormValue.bool b => b
  | FormValue.arr _ => true
  | FormValue.null => false
  | FormValue.undefined => false

/-- JavaScript `String(value)` on the `FormValue` domain. -/
def jsToString : FormValue → String
  | FormValue.date t => match t with
    | some n => toString n
    | none => "Invalid Date"
  | FormValue.str s => s
  | FormValue.num n => toString n
  | FormValue.bool b => cond b "true" "false"
  | FormValue.arr xs => String.intercalate "," xs
  | FormValue.null => "null"
  | FormValue.undefined => "undefined"

/-- First own property with the given key (JavaScript object key lookup;
object keys are unique, so first match is the match). -/
def lookupEntry {α : Type} : List (String × α) → String → Option α
  | [], _ => none
  | e :: rest, k => if e.1 = k then some e.2 else lookupEntry rest k

/-- JavaScript property assignment `m[key] = v`: update in place when the
key exists, otherwise append (insertion order preserved). -/
def setEntry : List (String × Option String) → String → Option String →
    List (String × Option String)
  | [], k, v => [(k, v)]
  | e :: rest, k, v =>
    if e.1 = k then (k, v) :: rest else e :: setEntry rest k v

/-- `email` from the source
(`!!value && typeof value === 'string' && emailRegex.test(value)`),
parametrised by the regex test, which is an opaque-to-us pure predicate on
strings. -/
def email (test : String → Bool) (value : FormValue) : Bool :=
  jsTruthy value &&
    (match value with
     | FormValue.str s => test s
     | _ => false)

/-- `typeof value === 'object'` on the `FormValue` domain: true for
`Date`, arrays and `null`. -/
def typeofObject : FormValue → Bool
  | FormValue.date _ => true
  | FormValue.arr _ => true
  | FormValue.null => true
  | _ => false

/-- `required` from the source, branch for branch in the source's check
order (array, then nullish, then boolean, then `Date`, then
`typeof === 'object'`, then the string-form fallback).  The
`typeof value === 'object'` branch calls `isEmpty`, whose import is
commented out in the source file, so entering it would throw a
`ReferenceError`; that branch is modelled as `none` (failure), every other
branch as `some` of the boolean the source returns. -/
def required (value : FormValue) : Option Bool :=
  match value with
  | FormValue.arr xs => some (decide (xs.length ≠ 0))
  | FormValue.undefined => some false
  | FormValue.null => some false
  | FormValue.bool _ => some true
  | FormValue.date t => some t.isSome
  | v =>
    if typeofObject v then none
    else some (decide (jsToString v ≠ ""))

/-- `getFieldErrorMessage` from the source: rule name plus optional label
and parameter to message text; `label || 'field'` makes an absent or empty
label fall back to `"field"`, and an absent `param` renders as the string
`"undefined"` (JavaScript template interpolation of `undefined`). -/
def getFieldErrorMessage (label : Option String) (errorType : String)
    (param : Option String) : String :=
  let l0 := label.getD ""
  let l := if l0 = "" then "field" else l0
  let p := param.getD "undefined"
  if errorType = "required" then s!"The {l} is required"
  else if errorType = "email" then s!"The {l} must a valid email address."
  else if errorType = "numeric" then s!"The {l} must be a valid number."
  else if errorType = "maxLength" then
    s!"The {l} cannot have more than {p} characters."
  else if errorType = "minLength" then
    s!"The {l} must have {p} or more characters."
  else s!"The {l} is invalid"

/-- JavaScript truthiness of a rule-set member, for
`!!fieldRules.required`: absent is falsy, a boolean is itself, a function
object is truthy. -/
def validatorTruthy : Option Validator → Bool
  | some (Validator.bool b) => b
  | some (Validator.fn _) => true
  | none => false

/-- Lines 127–131 of the source, run at the top of every rule iteration:
`isFieldRequired = !!fieldRules.required`, overridden by
`fieldRules.requiredIf(value)` when `requiredIf` is a function. -/
def effectiveRequired (fieldRules : RuleSet) (value : FormValue) : Bool :=
  let isFieldRequired := validatorTruthy (lookupEntry fieldRules "required")
  match lookupEntry fieldRules "requiredIf" with
  | some (Validator.fn f) => f value
  | _ => isFieldRequired

/-- Label lookup from lines 133–135:
`(labelsName && key in labelsName && labelsName[key]) ? labelsName[key] : undefined`
(a present but empty label string is falsy, hence dropped). -/
def lookupLabel (labelsName : Option LabelTable) (key : String) :
    Option String :=
  match labelsName with
  | none => none
  | some table =>
    match lookupEntry table key with
    | some l => if l = "" then none else some l
    | none => none

/-- Truthiness of the local `validationMessage` variable
(`string | undefined`): truthy iff present and non-empty. -/
def vmTruthy (o : Option String) : Bool :=
  decide (o.getD "" ≠ "")

/-- One iteration of the inner `forEach` over a field's rule entries
(lines 126–158).  The state is the pair of the local `validationMessage`
variable and the current content of `validationMessages[key]`
(`none` = the key was never assigned, `some none` = assigned `undefined`). -/
def stepRule (fieldRules : RuleSet) (value : FormValue)
    (label : Option String) (st : Option String × Option (Option String))
    (rule : String × Validator) : Option String × Option (Option String) :=
  let isFieldRequired := effectiveRequired fieldRules value
  let fieldErrorMessage := getFieldErrorMessage label rule.1 none
  if (isFieldRequired && !(jsTruthy value)) || vmTruthy st.1 then
    (some fieldErrorMessage, some (some fieldErrorMessage))
  else if rule.1 = "required" || rule.1 = "requiredIf" then st
  else
    match rule.2 with
    | Validator.fn f => if !(f value) then (st.1, some st.1) else st
    | Validator.bool _ => st

/-- Verdict for one field: run the inner `forEach` over the field's rule
entries and report what, if anything, ended up in
`validationMessages[key]`. -/
def evalField (fieldRules : RuleSet) (value : FormValue)
    (label : Option String) : Option (Option String) :=
  (fieldRules.foldl (stepRule fieldRules value label) (none, none)).2

/-- Rule-set lookup from lines 116–118:
`(rulesList && rulesList[key] && key in rulesList) ? rulesList[key] : undefined`
(a present rule set is an object, hence truthy). -/
def lookupRules (rulesList : Option RuleTable) (key : String) :
    Option RuleSet :=
  match rulesList with
  | none => none
  | some table => lookupEntry table key

/-- The body of the outer `forEach` over `Object.entries(formValue || {})`:
skip a field with no rule set (`if (!fieldRules) return`), otherwise run
the rule iteration and record the field's final
`validationMessages[key]`, if one was assigned. -/
def procField (rulesList : Option RuleTable) (labelsName : Option LabelTable)
    (acc : List (String × Option String)) (kv : String × FormValue) :
    List (String × Option String) :=
  match lookupRules rulesList kv.1 with
  | none => acc
  | some fieldRules =>
    match evalField fieldRules kv.2 (lookupLabel labelsName kv.1) with
    | none => acc
    | some m => setEntry acc kv.1 m

/-- The fresh `validationMessages` object built by one pass of
`triggerFormValidationManual` (lines 113–159). -/
def computeValidationMessages (formValue : Option FormRecord)
    (rulesList : Option RuleTable) (labelsName : Option LabelTable) :
    List (String × Option String) :=
  (match formValue with
   | none => []
   | some entries => entries).foldl (procField rulesList labelsName) []

/-- The controller's three state cells: `errorMessages`,
`generalErrorMessage` and `isFormValid`. -/
structure FormState where
  errorMessages : List (String × Option String)
  generalErrorMessage : String
  isFormValid : Bool
deriving DecidableEq

/-- The cells as initialised in `useForm` (lines 84–87):
`ref({})`, `ref('')`, `ref(false)`. -/
def initialState : FormState :=
  { errorMessages := [], generalErrorMessage := "", isFormValid := false }

/-- `triggerFormValidationManual` (lines 108–167): rebuild
`validationMessages`, set `isFormValid` to "no keys", and overwrite
`errorMessages` only when invalid. -/
def triggerFormValidationManual (form : Option FormRecord)
    (rules : Option RuleTable) (labels : Option LabelTable)
    (st : FormState) : FormState :=
  let validationMessages := computeValidationMessages form rules labels
  let isFormValid := decide (validationMessages.length = 0)
  { errorMessages :=
      if isFormValid then st.errorMessages else validationMessages,
    generalErrorMessage := st.generalErrorMessage,
    isFormValid := isFormValid }

/-- `setErrorMessage` (lines 89–97): rebuild the error record by joining
each field's message list with `', '`, then replace `errorMessages`. -/
def setErrorMessage (errors : List (String × List String))
    (st : FormState) : FormState :=
  let errorResult := errors.foldl
    (fun acc kv => setEntry acc kv.1 (some (String.intercalate ", " kv.2)))
    []
  { st with errorMessages := errorResult }

/-- `setGenericError` (lines 99–101). -/
def setGenericError (message : String) (st : FormState) : FormState :=
  { st with generalErrorMessage := message }

/-- `resetError` (lines 103–106). -/
def resetError (st : FormState) : FormState :=
  { st with errorMessages := [], generalErrorMessage := "" }

/-- Stated from the spec's words (§4.3 step 1 / C3): the effective
required state is the `requiredIf` function's result when `requiredIf` is
a function, otherwise the truthiness of the `required` flag, absence
counting as false. -/
def effectiveRequiredSpec (fieldRules : RuleSet) (value : FormValue) :
    Bool :=
  match lookupEntry fieldRules "requiredIf" with
  | some (Validator.fn f) => f value
  | _ => validatorTruthy (lookupEntry fieldRules "required")

/-- Stated from the spec's words (§4.1 / C6): `required` is false on
absent values; on sequences false iff empty; on dates false iff invalid;
on booleans always true; otherwise false iff the string form is empty. -/
def requiredSpec : FormValue → Bool
  | FormValue.null => false
  | FormValue.undefined => false
  | FormValue.arr xs => decide (xs ≠ [])
  | FormValue.date t => t.isSome
  | FormValue.bool _ => true
  | v => decide (jsToString v ≠ "")

/-- A rule entry that makes the source's function-rule branch (lines
151–157) record a failure for the current value: its key is neither
`required` nor `requiredIf`, its value is a function, and the function
returns false on the value. -/
def isFailingRule (v : FormValue) (r : String × Validator) : Bool :=
  !(r.1 = "required" || r.1 = "requiredIf") &&
    (match r.2 with
     | Validator.fn f => !(f v)
     | Validator.bool _ => false)

/-! ### Association-list helper lemmas -/

theorem lookupEntry_setEntry_self (m : List (String × Option String))
    (k : String) (v : Option String) :
    lookupEntry (setEntry m k v) k = some v := by
  induction m with
  | nil => simp [setEntry, lookupEntry]
  | cons e rest ih =>
    by_cases h : e.1 = k
    · simp [setEntry, h, lookupEntry]
    · simp [setEntry, h, lookupEntry, ih]

theorem lookupEntry_setEntry_ne (m : List (String × Option String))
    (k k' : String) (v : Option String) (h : k ≠ k') :
    lookupEntry (setEntry m k' v) k = lookupEntry m k := by
  induction m with
  | nil => simp [setEntry, lookupEntry, Ne.symm h]
  | cons e rest ih =>
    by_cases he : e.1 = k'
    · have hek : e.1 ≠ k := by rw [he]; exact Ne.symm h
      simp [setEntry, he, lookupEntry, Ne.symm h, hek]
    · by_cases hk : e.1 = k <;>
        simp [setEntry, he, lookupEntry, hk, h, ih]

theorem lookupEntry_eq_none_of_nil (k : String) :
    lookupEntry ([] : List (String × Option String)) k = none := rfl

/-! ### Per-field evaluation lemmas -/

/-- When the effective required state is true and the value is falsy, the
short-circuit branch (line 140) fires on every rule entry, each time
overwriting the message with the message formatted for the rule entry
currently being visited; after a non-empty rule list the surviving
message is the one for the last declared rule. -/
theorem evalField_required_falsy (rs rs' : RuleSet) (rk : String)
    (rv : Validator) (v : FormValue) (label : Option String)
    (hrs : rs = rs' ++ [(rk, rv)])
    (hreq : effectiveRequired rs v = true) (hfalsy : jsTruthy v = false) :
    evalField rs v label
      = some (some (getFieldErrorMessage label rk none)) := by
  subst hrs
  unfold evalField
  rw [List.foldl_append]
  simp [stepRule, hreq, hfalsy]

/-- When the effective required state is false, the local
`validationMessage` variable is never assigned, so a failing function
rule stores `validationMessages[key] = undefined`; the fold yields
`undefined` for the key iff some non-required function rule fails. -/
theorem foldl_stepRule_notRequired (rs : RuleSet) (v : FormValue)
    (label : Option String) (hreq : effectiveRequired rs v = false)
    (l : List (String × Validator)) :
    ∀ (a : Option (Option String)),
    List.foldl (stepRule rs v label) (none, a) l
      = (none, if l.any (isFailingRule v) then some none else a) := by
  induction l with
  | nil => intro a; simp
  | cons r l ih =>
    intro a
    have hstep : stepRule rs v label (none, a) r
        = if isFailingRule v r then (none, some none) else (none, a) := by
      by_cases h1 : r.1 = "required" || r.1 = "requiredIf"
      · simp [stepRule, hreq, vmTruthy, h1, isFailingRule]
      · cases hr2 : r.2 with
        | bool b => simp [stepRule, hreq, vmTruthy, h1, isFailingRule, hr2]
        | fn f =>
          by_cases h2 : f v
          · simp [stepRule, hreq, vmTruthy, h1, isFailingRule, hr2, h2]
          · simp [stepRule, hreq, vmTruthy, h1, isFailingRule, hr2,
              Bool.eq_false_iff.mpr h2]
    rw [List.foldl_cons, hstep]
    rcases Bool.eq_false_or_eq_true (isFailingRule v r) with hf | hf
    · rw [List.any_cons, hf, Bool.true_or]
      simp [ih]
    · rw [List.any_cons, hf, Bool.false_or]
      simp [ih]

/-- Verdict of `evalField` for a field that is not effectively required:
`validationMessages[key]` ends up assigned (to `undefined`) iff some rule
entry is a failing non-required function rule. -/
theorem evalField_notRequired (rs : RuleSet) (v : FormValue)
    (label : Option String) (hreq : effectiveRequired rs v = false) :
    evalField rs v label
      = if rs.any (isFailingRule v) then some none else none := by
  unfold evalField
  rw [foldl_stepRule_notRequired rs v label hreq rs none]

/-! ### Controller-level lemmas -/

theorem lookupEntry_procField_ne (rules : Option RuleTable)
    (labels : Option LabelTable) (acc : List (String × Option String))
    (kv : String × FormValue) (k : String) (h : kv.1 ≠ k) :
    lookupEntry (procField rules labels acc kv) k = lookupEntry acc k := by
  cases hr : lookupRules rules kv.1 with
  | none => simp [procField, hr]
  | some rs =>
    cases he : evalField rs kv.2 (lookupLabel labels kv.1) with
    | none => simp [procField, hr, he]
    | some m =>
      simp [procField, hr, he,
        lookupEntry_setEntry_ne acc k kv.1 m (Ne.symm h)]

theorem lookupEntry_foldl_procField_notMem (rules : Option RuleTable)
    (labels : Option LabelTable) (k : String) (fv : FormRecord)
    (h : ∀ kv ∈ fv, kv.1 ≠ k) :
    ∀ (acc : List (String × Option String)),
    lookupEntry (fv.foldl (procField rules labels) acc) k
      = lookupEntry acc k := by
  induction fv with
  | nil => intro acc; rfl
  | cons kv fv ih =>
    intro acc
    rw [List.foldl_cons,
      ih (fun x hx => h x (List.mem_cons_of_mem _ hx)),
      lookupEntry_procField_ne rules labels acc kv k
        (h kv (List.mem_cons_self _ _))]

theorem lookupEntry_foldl_procField_mem (rules : Option RuleTable)
    (labels : Option LabelTable) (k : String) (v : FormValue)
    (fv : FormRecord) (hnd : (fv.map Prod.fst).Nodup)
    (hmem : (k, v) ∈ fv) :
    ∀ (acc : List (String × Option String)), lookupEntry acc k = none →
    lookupEntry (fv.foldl (procField rules labels) acc) k
      = (lookupRules rules k).bind
          (fun rs => evalField rs v (lookupLabel labels k)) := by
  induction fv with
  | nil => exact absurd hmem (List.not_mem_nil _)
  | cons kv fv ih =>
    intro acc hacc
    rw [List.map_cons, List.nodup_cons] at hnd
    rw [List.foldl_cons]
    rcases List.mem_cons.mp hmem with heq | hmem2
    · have hkv : kv = (k, v) := heq.symm
      subst hkv
      have hrest : ∀ x ∈ fv, x.1 ≠ k := by
        intro x hx hxk
        have hx2 : x.1 ∈ fv.map Prod.fst := List.mem_map_of_mem Prod.fst hx
        rw [hxk] at hx2
        exact hnd.1 hx2
      rw [lookupEntry_foldl_procField_notMem rules labels k fv hrest]
      cases hr : lookupRules rules k with
      | none => simpa [procField, hr] using hacc
      | some rs =>
        cases he : evalField rs v (lookupLabel labels k) with
        | none => simpa [procField, hr, he] using hacc
        | some m => simp [procField, hr, he, lookupEntry_setEntry_self]
    · have hk : kv.1 ≠ k := by
        intro hh
        have hx2 : (k, v).1 ∈ fv.map Prod.fst :=
          List.mem_map_of_mem Prod.fst hmem2
        rw [← hh] at hx2
        exact hnd.1 hx2
      exact ih hnd.2 hmem2 _
        (by rw [lookupEntry_procField_ne rules labels acc kv k hk]
            exact hacc)

theorem lookupEntry_foldl_procField_noRules (rules : Option RuleTable)
    (labels : Option LabelTable) (k : String)
    (h : lookupRules rules k = none) (fv : FormRecord) :
    ∀ (acc : List (String × Option String)),
    lookupEntry (fv.foldl (procField rules labels) acc) k
      = lookupEntry acc k := by
  induction fv with
  | nil => intro acc; rfl
  | cons kv fv ih =>
    intro acc
    rw [List.foldl_cons, ih]
    by_cases hk : kv.1 = k
    · unfold procField
      rw [hk, h]
    · exact lookupEntry_procField_ne rules labels acc kv k hk

theorem computeValidationMessages_noRuleTable (form : Option FormRecord)
    (labels : Option LabelTable) :
    computeValidationMessages form none labels = [] := by
  have hfold : ∀ (l : List (String × FormValue))
      (acc : List (String × Option String)),
      l.foldl (procField none labels) acc = acc := by
    intro l
    induction l with
    | nil => intro acc; rfl
    | cons kv l ih =>
      intro acc
      rw [List.foldl_cons]
      have hp : procField none labels acc kv = acc := rfl
      rw [hp, ih]
  cases form with
  | none => rfl
  | some entries => exact hfold entries []

/-- When the rebuilt `validationMessages` has an entry for some key, the
pass reports the form invalid and publishes exactly the rebuilt map. -/
theorem trigger_invalid_of_lookup (form : Option FormRecord)
    (rules : Option RuleTable) (labels : Option LabelTable)
    (st : FormState) (k : String) (x : Option String)
    (h : lookupEntry (computeValidationMessages form rules labels) k
        = some x) :
    (triggerFormValidationManual form rules labels st).isFormValid = false ∧
    (triggerFormValidationManual form rules labels st).errorMessages
      = computeValidationMessages form rules labels := by
  have hne : computeValidationMessages form rules labels ≠ [] := by
    intro hh
    rw [hh] at h
    exact Option.noConfusion h
  have hlen : ¬ (computeValidationMessages form rules labels).length = 0 :=
    fun hh => hne (List.length_eq_zero.mp hh)
  constructor <;> simp [triggerFormValidationManual, hlen]

/-! ### `setErrorMessage` fold lemmas -/

theorem lookupEntry_foldl_setEntry_notMem {β : Type}
    (g : String × β → Option String) (k : String) (l : List (String × β))
    (h : ∀ kv ∈ l, kv.1 ≠ k) :
    ∀ (acc : List (String × Option String)),
    lookupEntry
        (l.foldl (fun acc kv => setEntry acc kv.1 (g kv)) acc) k
      = lookupEntry acc k := by
  induction l with
  | nil => intro acc; rfl
  | cons kv l ih =>
    intro acc
    rw [List.foldl_cons,
      ih (fun x hx => h x (List.mem_cons_of_mem _ hx)),
      lookupEntry_setEntry_ne acc k kv.1 (g kv)
        (Ne.symm (h kv (List.mem_cons_self _ _)))]

theorem lookupEntry_foldl_setEntry_mem {β : Type}
    (g : String × β → Option String) (k : String) (x : β)
    (l : List (String × β)) (hnd : (l.map Prod.fst).Nodup)
    (hmem : (k, x) ∈ l) :
    ∀ (acc : List (String × Option String)),
    lookupEntry
        (l.foldl (fun acc kv => setEntry acc kv.1 (g kv)) acc) k
      = some (g (k, x)) := by
  induction l with
  | nil => exact absurd hmem (List.not_mem_nil _)
  | cons kv l ih =>
    intro acc
    rw [List.map_cons, List.nodup_cons] at hnd
    rw [List.foldl_cons]
    rcases List.mem_cons.mp hmem with heq | hmem2
    · have hkv : kv = (k, x) := heq.symm
      subst hkv
      have hrest : ∀ y ∈ l, y.1 ≠ k := by
        intro y hy hyk
        have hy2 : y.1 ∈ l.map Prod.fst := List.mem_map_of_mem Prod.fst hy
        rw [hyk] at hy2
        exact hnd.1 hy2
      rw [lookupEntry_foldl_setEntry_notMem g k l hrest,
        lookupEntry_setEntry_self]
    · exact ih hnd.2 hmem2 _

/-- Lookup of a field's final verdict in the rebuilt
`validationMessages` map: for a field present in the form record (keys
unique), it is exactly what the rule iteration produced for that field. -/
theorem lookupEntry_computeValidationMessages (fv : FormRecord)
    (rules : Option RuleTable) (labels : Option LabelTable) (k : String)
    (v : FormValue) (hnd : (fv.map Prod.fst).Nodup) (hmem : (k, v) ∈ fv) :
    lookupEntry (computeValidationMessages (some fv) rules labels) k
      = (lookupRules rules k).bind
          (fun rs => evalField rs v (lookupLabel labels k)) := by
  unfold computeValidationMessages
  exact lookupEntry_foldl_procField_mem rules labels k v fv hnd hmem [] rfl

/-! ### Claim theorems -/

/-- C1 counterexample.  Field `e` has `required: true` (no `requiredIf`)
and the falsy value `""`, yet with a second rule `email` declared after
`required`, the stored message after a validation pass is the email
message, not the required-style message "The field is required": the
short-circuit branch reformats the message for each rule entry it visits,
so the last declared rule's message survives. -/
theorem required_falsy_message_counterexample :
    effectiveRequired
        [("required", Validator.bool true),
         ("email", Validator.fn (fun _ => false))] (FormValue.str "")
      = true ∧
    jsTruthy (FormValue.str "") = false ∧
    lookupEntry
        (triggerFormValidationManual (some [("e", FormValue.str "")])
          (some [("e",
            [("required", Validator.bool true),
             ("email", Validator.fn (fun _ => false))])])
          none initialState).errorMessages "e"
      = some (some "The field must a valid email address.") ∧
    lookupEntry
        (triggerFormValidationManual (some [("e", FormValue.str "")])
          (some [("e",
            [("required", Validator.bool true),
             ("email", Validator.fn (fun _ => false))])])
          none initialState).errorMessages "e"
      ≠ some (some "The field is required") := by
  refine ⟨rfl, rfl, rfl, ?_⟩
  decide

/-- C1 (amended).  For a field whose effective required state is true and
whose value is falsy, after a validation pass the form is invalid and the
field's stored error message is the message formatted (with the field's
label) for the LAST rule declared in the field's rule set — so it is the
required-style message exactly when the last declared rule's name is
`required` (the formatter has no `requiredIf` case, so a rule set ending
in `requiredIf` yields the generic "The {label|'field'} is invalid"
message); other declared rules and their order do affect the message. -/
theorem required_falsy_message_is_last_rule_message (fv : FormRecord)
    (rules : Option RuleTable) (labels : Option LabelTable)
    (st : FormState) (k : String) (v : FormValue) (rs tl : RuleSet)
    (rk : String) (rv : Validator)
    (hnd : (fv.map Prod.fst).Nodup) (hmem : (k, v) ∈ fv)
    (hr : lookupRules rules k = some rs) (hrs : rs = tl ++ [(rk, rv)])
    (hreq : effectiveRequired rs v = true)
    (hfalsy : jsTruthy v = false) :
    (triggerFormValidationManual (some fv) rules labels st).isFormValid
        = false ∧
    lookupEntry
        (triggerFormValidationManual (some fv) rules labels
          st).errorMessages k
      = some (some (getFieldErrorMessage (lookupLabel labels k) rk none))
    := by
  have hvm : lookupEntry
      (computeValidationMessages (some fv) rules labels) k
      = some (some (getFieldErrorMessage (lookupLabel labels k) rk none))
    := by
    rw [lookupEntry_computeValidationMessages fv rules labels k v hnd hmem,
      hr, Option.some_bind,
      evalField_required_falsy rs tl rk rv v (lookupLabel labels k) hrs
        hreq hfalsy]
  have ht := trigger_invalid_of_lookup (some fv) rules labels st k _ hvm
  refine ⟨ht.1, ?_⟩
  rw [ht.2]
  exact hvm

/-- C1 witness: labels absent, field `e` with rules
`{required: true, email: fn}` and value `""`; the stored message is the
one for the last declared rule, `email`. -/
theorem required_falsy_message_is_last_rule_message_witness :
    (triggerFormValidationManual (some [("e", FormValue.str "")])
        (some [("e",
          [("required", Validator.bool true),
           ("email", Validator.fn (fun _ => false))])])
        none initialState).isFormValid = false ∧
    lookupEntry
        (triggerFormValidationManual (some [("e", FormValue.str "")])
          (some [("e",
            [("required", Validator.bool true),
             ("email", Validator.fn (fun _ => false))])])
          none initialState).errorMessages "e"
      = some (some (getFieldErrorMessage (lookupLabel none "e") "email"
          none)) :=
  required_falsy_message_is_last_rule_message
    [("e", FormValue.str "")]
    (some [("e",
      [("required", Validator.bool true),
       ("email", Validator.fn (fun _ => false))])])
    none initialState "e" (FormValue.str "")
    [("required", Validator.bool true),
     ("email", Validator.fn (fun _ => false))]
    [("required", Validator.bool true)] "email"
    (Validator.fn (fun _ => false))
    (by simp) (by simp) rfl rfl rfl rfl

/-- C2 (confirmed).  For a field that is not effectively required whose
rule set contains a failing non-required function rule (e.g. `numeric`
returning false on the value), a validation pass reports the form invalid
with that field present in the error map, and the entry holds only the
still-unset pending message variable (`undefined`), not a freshly
formatted message for the failing rule. -/
theorem failing_function_rule_reports_invalid_pending_message
    (fv : FormRecord) (rules : Option RuleTable)
    (labels : Option LabelTable) (st : FormState) (k : String)
    (v : FormValue) (rs : RuleSet)
    (hnd : (fv.map Prod.fst).Nodup) (hmem : (k, v) ∈ fv)
    (hr : lookupRules rules k = some rs)
    (hreq : effectiveRequired rs v = false)
    (hfail : rs.any (isFailingRule v) = true) :
    (triggerFormValidationManual (some fv) rules labels st).isFormValid
        = false ∧
    lookupEntry
        (triggerFormValidationManual (some fv) rules labels
          st).errorMessages k
      = some none := by
  have hvm : lookupEntry
      (computeValidationMessages (some fv) rules labels) k = some none
    := by
    rw [lookupEntry_computeValidationMessages fv rules labels k v hnd hmem,
      hr, Option.some_bind,
      evalField_notRequired rs v (lookupLabel labels k) hreq, hfail]
    rfl
  have ht := trigger_invalid_of_lookup (some fv) rules labels st k _ hvm
  refine ⟨ht.1, ?_⟩
  rw [ht.2]
  exact hvm

/-- C2 witness: rules `{age: {numeric: isNumeric}}`, value
`{age: "abc"}`, no `required`: the pass is invalid, `age` is in the error
map, and its entry is the undefined pending message. -/
theorem failing_function_rule_reports_invalid_pending_message_witness :
    (triggerFormValidationManual (some [("age", FormValue.str "abc")])
        (some [("age",
          [("numeric", Validator.fn (fun w =>
            match w with
            | FormValue.num _ => true
            | _ => false))])])
        none initialState).isFormValid = false ∧
    lookupEntry
        (triggerFormValidationManual (some [("age", FormValue.str "abc")])
          (some [("age",
            [("numeric", Validator.fn (fun w =>
              match w with
              | FormValue.num _ => true
              | _ => false))])])
          none initialState).errorMessages "age"
      = some none :=
  failing_function_rule_reports_invalid_pending_message
    [("age", FormValue.str "abc")]
    (some [("age",
      [("numeric", Validator.fn (fun w =>
        match w with
        | FormValue.num _ => true
        | _ => false))])])
    none initialState "age" (FormValue.str "abc")
    [("numeric", Validator.fn (fun w =>
      match w with
      | FormValue.num _ => true
      | _ => false))]
    (by simp) (by simp) rfl rfl rfl

/-- C3 (confirmed).  The effective required state used by the evaluator:
when the rule set has a function-valued `requiredIf`, it equals that
function applied to the current value (overriding any literal `required`
flag); when `requiredIf` is absent or not a function, it is the
truthiness of the `required` flag, absence counting as false. -/
theorem effectiveRequired_matches_spec (rs : RuleSet) (v : FormValue) :
    (∀ f, lookupEntry rs "requiredIf" = some (Validator.fn f) →
      effectiveRequired rs v = f v) ∧
    ((∀ f, lookupEntry rs "requiredIf" ≠ some (Validator.fn f)) →
      effectiveRequired rs v
        = validatorTruthy (lookupEntry rs "required")) ∧
    effectiveRequired rs v = effectiveRequiredSpec rs v := by
  refine ⟨?_, ?_, rfl⟩
  · intro f hf
    unfold effectiveRequired
    rw [hf]
  · intro h
    unfold effectiveRequired
    cases hik : lookupEntry rs "requiredIf" with
    | none => rfl
    | some w =>
      cases w with
      | bool b => rfl
      | fn f => exact absurd hik (h f)

/-- C3 witness: `requiredIf` is a function returning true while the
literal `required` flag is false; the function's result wins. -/
theorem effectiveRequired_matches_spec_witness :
    effectiveRequired
        [("required", Validator.bool false),
         ("requiredIf", Validator.fn (fun _ => true))]
        FormValue.null = true :=
  (effectiveRequired_matches_spec
    [("required", Validator.bool false),
     ("requiredIf", Validator.fn (fun _ => true))]
    FormValue.null).1 (fun _ => true) rfl

/-- C4 (confirmed).  A validation pass sets `isFormValid` to true iff the
freshly rebuilt map is empty, replaces `errorMessages` with the rebuilt
map only when invalid (leaving prior error state untouched when valid),
and never touches the form-level message. -/
theorem triggerValidation_validity_and_error_frame
    (form : Option FormRecord) (rules : Option RuleTable)
    (labels : Option LabelTable) (st : FormState) :
    ((triggerFormValidationManual form rules labels st).isFormValid = true
      ↔ computeValidationMessages form rules labels = []) ∧
    (triggerFormValidationManual form rules labels st).errorMessages
      = (if computeValidationMessages form rules labels = []
         then st.errorMessages
         else computeValidationMessages form rules labels) ∧
    (triggerFormValidationManual form rules labels st).generalErrorMessage
      = st.generalErrorMessage := by
  by_cases h : computeValidationMessages form rules labels = []
  · have hlen : (computeValidationMessages form rules labels).length = 0 :=
      List.length_eq_zero.mpr h
    refine ⟨?_, ?_, rfl⟩ <;>
      simp [triggerFormValidationManual, hlen, h]
  · have hlen :
        ¬ (computeValidationMessages form rules labels).length = 0 :=
      fun hh => h (List.length_eq_zero.mp hh)
    refine ⟨?_, ?_, rfl⟩ <;>
      simp [triggerFormValidationManual, hlen, h]

/-- C5 (confirmed).  With a fixed snapshot of values, rules and labels
(and pure rule predicates), the validation pass is idempotent: running it
twice leaves exactly the state reached after the first run — same error
map, same validity flag. -/
theorem triggerValidation_idempotent (form : Option FormRecord)
    (rules : Option RuleTable) (labels : Option LabelTable)
    (st : FormState) :
    triggerFormValidationManual form rules labels
        (triggerFormValidationManual form rules labels st)
      = triggerFormValidationManual form rules labels st := by
  by_cases h : (computeValidationMessages form rules labels).length = 0 <;>
    simp [triggerFormValidationManual, h]

/-- C6 (confirmed).  The `required` predicate returns, for every
`FormValue`: false on `null`/`undefined`; for arrays, false iff empty;
for dates, false iff the time value is `NaN`; for booleans, always true;
otherwise false iff the value's string form is empty. -/
theorem required_matches_spec (v : FormValue) :
    required v = some (requiredSpec v) := by
  cases v with
  | arr xs =>
    have hiff : xs.length ≠ 0 ↔ xs ≠ [] := not_congr List.length_eq_zero
    simp [required, requiredSpec, decide_eq_decide.mpr hiff]
  | date t => rfl
  | str s => rfl
  | num n => rfl
  | bool b => rfl
  | null => rfl
  | undefined => rfl

/-- C7 (confirmed).  Both built-in predicates are total on the
`FormValue` domain: `email` (for any regex test) returns a boolean, and
`required` never reaches the `typeof === 'object'` / `isEmpty` branch —
the only branch that could throw (its `isEmpty` import is commented out)
— so it returns `some` boolean on every `FormValue`. -/
theorem predicates_total_object_branch_unreachable
    (test : String → Bool) (v : FormValue) :
    (email test v = true ∨ email test v = false) ∧
    (required v).isSome = true := by
  refine ⟨Bool.eq_false_or_eq_true (email test v), ?_⟩
  cases v <;> rfl

/-- C8 (confirmed).  A field with no entry in the rule table is never
present in the rebuilt error map, whatever its value; and with no rule
table at all, a pass on a fresh controller yields an empty error map and
validity flag true. -/
theorem unruled_fields_never_invalid (form : Option FormRecord)
    (rules : Option RuleTable) (labels : Option LabelTable) (k : String)
    (h : lookupRules rules k = none) :
    lookupEntry (computeValidationMessages form rules labels) k = none ∧
    triggerFormValidationManual form none labels initialState
      = { errorMessages := [], generalErrorMessage := "",
          isFormValid := true } := by
  constructor
  · cases form with
    | none => rfl
    | some fv =>
      unfold computeValidationMessages
      exact lookupEntry_foldl_procField_noRules rules labels k h fv []
  · have hvm := computeValidationMessages_noRuleTable form labels
    simp [triggerFormValidationManual, hvm, initialState]

/-- C8 witness: value `{name: "x"}`; with a rule table that has no entry
for `name`, the rebuilt map has no `name` entry, and with no rule table
at all the pass on a fresh controller is valid with an empty map. -/
theorem unruled_fields_never_invalid_witness :
    lookupEntry
        (computeValidationMessages (some [("name", FormValue.str "x")])
          (some [("other", [("required", Validator.bool true)])]) none)
        "name" = none ∧
    triggerFormValidationManual (some [("name", FormValue.str "x")]) none
        none initialState
      = { errorMessages := [], generalErrorMessage := "",
          isFormValid := true } :=
  unruled_fields_never_invalid (some [("name", FormValue.str "x")])
    (some [("other", [("required", Validator.bool true)])]) none "name"
    rfl

/-- C9 (confirmed).  `setErrorMessage` stores, for every field of the
injected map, that field's message list joined with the separator `", "`
as the field's single display string. -/
theorem setErrorMessage_joins_with_comma_space
    (errors : List (String × List String)) (st : FormState) (k : String)
    (msgs : List String) (hnd : (errors.map Prod.fst).Nodup)
    (hmem : (k, msgs) ∈ errors) :
    lookupEntry ((setErrorMessage errors st).errorMessages) k
      = some (some (String.intercalate ", " msgs)) := by
  unfold setErrorMessage
  exact lookupEntry_foldl_setEntry_mem
    (fun kv => some (String.intercalate ", " kv.2)) k msgs errors hnd
    hmem []

/-- C9 witness: injecting `{email: ["bad", "taken"]}` makes the stored
email message `"bad, taken"`. -/
theorem setErrorMessage_joins_with_comma_space_witness :
    lookupEntry
        ((setErrorMessage [("email", ["bad", "taken"])]
          initialState).errorMessages) "email"
      = some (some "bad, taken") := by
  have h := setErrorMessage_joins_with_comma_space
    [("email", ["bad", "taken"])] initialState "email" ["bad", "taken"]
    (by simp) (by simp)
  simpa using h

/-- C10 (confirmed).  Immediately after construction, before any
validation or error-setting call, the controller exposes an empty
per-field error map, an empty form-level message, and `isFormValid`
equal to false. -/
theorem initialState_matches_spec :
    initialState.errorMessages = [] ∧
    initialState.generalErrorMessage = "" ∧
    initialState.isFormValid = false :=
  ⟨rfl, rfl, rfl⟩

end MiniFormKit
